import Mathlib

/-!
Shallow embedding of the `pound` terminal text editor core (src/main.rs):
the row store with its tab-expanded render cache, the cursor/viewport
controller, and the key-dispatch state machine of `Editor::process_keypress`.

Modelling conventions:
* Rust `String`s are `List Char` (the code only ever indexes by what it
  treats as scalar positions); `usize` is `Nat`.
* Operations that can panic in Rust (`usize` underflow followed by an
  out-of-bounds `Vec`/`String` index, `String::insert`/`remove` out of
  bounds, `unimplemented!`) return `Option`, with `none` standing for the
  panic/abort.
* Fallible I/O results (`io::Result`) are `Except Str`; the external file
  write itself is modelled as succeeding, since the filesystem is an
  external collaborator — only the pure content computation is embedded.
* `StatusMessage` keeps only its text; the wall-clock expiry field is an
  external time concern and no claim here depends on it.
* The frame renderer (`draw_rows` etc.) is not needed by any claim and is
  not embedded.
-/

abbrev Str := List Char

def TAB_STOP : Nat := 8

def QUIT_TIMES : Nat := 3

/-- Number of spaces emitted by the `while index % TAB_STOP != 0` padding
loop of `EditorRows::render_row` when it is entered with counter `i`. -/
def tabPad (i : Nat) : Nat := (TAB_STOP - i % TAB_STOP) % TAB_STOP

/-- The body of `EditorRows::render_row`: walk the raw scalars keeping the
running rendered-column counter `index`; a tab pushes one space and then
pads with spaces until the counter reaches the next multiple of `TAB_STOP`;
any other scalar is pushed unchanged. -/
def renderChars : Nat → Str → Str
  | _, [] => []
  | index, c :: rest =>
    let index := index + 1
    if c = '\t' then
      ' ' :: (List.replicate (tabPad index) ' ' ++ renderChars (index + tabPad index) rest)
    else
      c :: renderChars index rest

/-- `EditorRows::render_row`, as the derived render cache of a raw row. -/
def renderRow (content : Str) : Str := renderChars 0 content

/-- A text row: raw content plus its tab-expanded render cache
(struct `Row` in the source). -/
structure Row where
  row_content : Str
  render : Str
deriving DecidableEq, Repr

/-- `Row::insert_char`: `String::insert` at scalar position `at_` (panics,
i.e. `none`, when `at_` is past the end), then `render_row`. -/
def Row.insert_char (r : Row) (at_ : Nat) (ch : Char) : Option Row :=
  if at_ ≤ r.row_content.length then
    let raw := r.row_content.take at_ ++ ch :: r.row_content.drop at_
    some { row_content := raw, render := renderRow raw }
  else none

/-- `Row::delete_char`: `String::remove` at scalar position `at_` (panics,
i.e. `none`, when `at_` is out of bounds), then `render_row`. -/
def Row.delete_char (r : Row) (at_ : Nat) : Option Row :=
  if at_ < r.row_content.length then
    let raw := r.row_content.take at_ ++ r.row_content.drop (at_ + 1)
    some { row_content := raw, render := renderRow raw }
  else none

/-- Split a character list at every newline; always returns at least one
(possibly empty) piece, like `str::split('\x5cn')`. -/
def splitNl : Str → List Str
  | [] => [[]]
  | c :: cs =>
    if c = '\n' then [] :: splitNl cs
    else
      match splitNl cs with
      | [] => [[c]]
      | p :: ps => (c :: p) :: ps

/-- Remove one trailing carriage return, as Rust's line iterator does to
every newline-terminated piece. -/
def stripCr (l : Str) : Str :=
  if l.getLast? = some '\r' then l.dropLast else l

/-- Model of Rust `str::lines`, used by `EditorRows::from_file`: split on
newline; every newline-terminated piece loses one trailing carriage
return; a final empty piece (from a trailing newline, or empty input) is
dropped; a final piece without a terminator is kept verbatim. -/
def rustLines (s : Str) : List Str :=
  let parts := splitNl s
  let front := parts.dropLast.map stripCr
  match parts.getLast? with
  | some [] => front
  | some l => front ++ [l]
  | none => front

/-- Row construction of `EditorRows::from_file`: one `Row` per input line,
with its render cache computed. -/
def loadRows (ls : List Str) : List Row :=
  ls.map fun l => { row_content := l, render := renderRow l }

/-- The row store (`EditorRows`): ordered rows plus the optional
associated file path. -/
structure EditorRows where
  row_contents : List Row
  filename : Option Str
deriving DecidableEq, Repr

/-- `EditorRows::from_file` on already-read file content. -/
def EditorRows.from_file (content : Str) (file : Str) : EditorRows :=
  { row_contents := loadRows (rustLines content), filename := some file }

def EditorRows.number_of_rows (e : EditorRows) : Nat :=
  e.row_contents.length

/-- `EditorRows::get_row`: `Vec` index, `none` on the out-of-bounds panic. -/
def EditorRows.get_row (e : EditorRows) (at_ : Nat) : Option Str :=
  (e.row_contents.get? at_).map Row.row_content

/-- `EditorRows::insert_row`: push an empty default row at the end. -/
def EditorRows.insert_row (e : EditorRows) : EditorRows :=
  { e with row_contents := e.row_contents ++ [{ row_content := [], render := [] }] }

/-- Join pieces with a single newline between consecutive ones
(`Vec::join("\x5cn")`). -/
def joinNl : List Str → Str
  | [] => []
  | [l] => l
  | l :: ls => l ++ '\n' :: joinNl ls

/-- The serialized buffer built by `EditorRows::save`: raw rows joined
with newlines. -/
def EditorRows.saveContents (e : EditorRows) : Str :=
  joinNl (e.row_contents.map Row.row_content)

def noFileNameMsg : Str := "No file name specified".data

/-- `EditorRows::save`: error when no path is associated; otherwise the
number of bytes written, which for the scalar-list model is the length of
the joined contents. The external file write is modelled as succeeding. -/
def EditorRows.save (e : EditorRows) : Except Str Nat :=
  match e.filename with
  | none => Except.error noFileNameMsg
  | some _ => Except.ok e.saveContents.length

/-- Length of the raw content of row `y`, defaulting to 0 out of range
(used only where the code has already checked the range). -/
def EditorRows.rowLenD (e : EditorRows) (y : Nat) : Nat :=
  ((e.row_contents.get? y).map fun r => r.row_content.length).getD 0

/-- `EditorRows::join_adjacent_rows`: remove row `at_`, append its raw
content to row `at_ - 1`, recompute the merged row's render cache.
`none` models the panics: `Vec::remove` out of bounds when
`at_ ≥ row count`, and the `usize` underflow / index panic when `at_ = 0`. -/
def EditorRows.join_adjacent_rows (e : EditorRows) (at_ : Nat) : Option EditorRows :=
  match e.row_contents.get? at_, at_ with
  | some current, p + 1 =>
    let rest := e.row_contents.eraseIdx (p + 1)
    match rest.get? p with
    | some previous =>
      let merged := previous.row_content ++ current.row_content
      some { e with row_contents := rest.set p { row_content := merged, render := renderRow merged } }
    | none => none
  | _, _ => none

/-- The abstract key symbols consumed by the dispatcher (crossterm
`KeyCode`, restricted to the variants the code matches on). -/
inductive KeyCodeT where
  | Char (c : Char)
  | Up
  | Down
  | Left
  | Right
  | Home
  | End
  | PageUp
  | PageDown
  | Backspace
  | Delete
  | Tab
  | Esc
deriving DecidableEq, Repr

/-- Key modifiers (crossterm `KeyModifiers`, the three values matched). -/
inductive KeyModifiers where
  | NONE
  | CONTROL
  | SHIFT
deriving DecidableEq, Repr

/-- A decoded key event. -/
structure KeyEvent where
  code : KeyCodeT
  modifiers : KeyModifiers
deriving DecidableEq, Repr

/-- The cursor/viewport controller (`CursorController`). -/
structure CursorController where
  cursor_x : Nat
  cursor_y : Nat
  screen_columns : Nat
  screen_rows : Nat
  row_offset : Nat
  column_offset : Nat
  render_x : Nat
deriving DecidableEq, Repr

/-- `CursorController::move_cursor`: the direction match followed by the
final re-clamp of `cursor_x` against the target row's length. `none`
models the panics: `cursor_y -= 1` underflowing at row 0 in the `Left`
arm (followed by an out-of-bounds row index), an out-of-bounds
`get_row`, and the `unimplemented!()` arm for non-movement keys. -/
def CursorController.move_cursor (cc : CursorController) (direction : KeyCodeT)
    (editor_rows : EditorRows) : Option CursorController :=
  let numbers_of_rows := editor_rows.number_of_rows
  let stepped : Option CursorController :=
    match direction with
    | .Up => some { cc with cursor_y := cc.cursor_y - 1 }
    | .Left =>
      if cc.cursor_x ≠ 0 then
        some { cc with cursor_x := cc.cursor_x - 1 }
      else if cc.cursor_y = 0 then
        none
      else
        (editor_rows.get_row (cc.cursor_y - 1)).map fun r =>
          { cc with cursor_y := cc.cursor_y - 1, cursor_x := r.length }
    | .Down =>
      if cc.cursor_y < numbers_of_rows then
        some { cc with cursor_y := cc.cursor_y + 1 }
      else
        some cc
    | .Right =>
      if cc.cursor_y < numbers_of_rows then
        (editor_rows.get_row cc.cursor_y).map fun r =>
          if cc.cursor_x < r.length then
            { cc with cursor_x := cc.cursor_x + 1 }
          else if cc.cursor_x = r.length then
            { cc with cursor_y := cc.cursor_y + 1, cursor_x := 0 }
          else
            cc
      else
        some cc
    | .Home => some { cc with cursor_x := 0 }
    | .End =>
      if cc.cursor_y < numbers_of_rows then
        (editor_rows.get_row cc.cursor_y).map fun r => { cc with cursor_x := r.length }
      else
        some cc
    | _ => none
  stepped.map fun c =>
    let row_len :=
      if c.cursor_y < numbers_of_rows then editor_rows.rowLenD c.cursor_y else 0
    { c with cursor_x := min c.cursor_x row_len }

/-- `CursorController::get_render_x`: fold the tab-expansion column step
over the raw scalars strictly before `cursor_x`. `none` models the panic
of slicing `row_content[..cursor_x]` past the end. -/
def CursorController.get_render_x (cc : CursorController) (row : Row) : Option Nat :=
  if cc.cursor_x ≤ row.row_content.length then
    some ((row.row_content.take cc.cursor_x).foldl
      (fun render_x c =>
        if c = '\t' then render_x + (TAB_STOP - 1) - render_x % TAB_STOP + 1
        else render_x + 1) 0)
  else none

/-- `CursorController::scroll`: recompute `render_x`, then the two-sided
clamp of `row_offset` against `cursor_y` and of `column_offset` against
`render_x`. -/
def CursorController.scroll (cc : CursorController) (editor_rows : EditorRows) :
    Option CursorController :=
  let rx : Option Nat :=
    if cc.cursor_y < editor_rows.number_of_rows then
      (editor_rows.row_contents.get? cc.cursor_y).bind fun r => cc.get_render_x r
    else
      some 0
  rx.map fun render_x =>
    let ro := min cc.row_offset cc.cursor_y
    let ro := if cc.cursor_y ≥ ro + cc.screen_rows then cc.cursor_y - cc.screen_rows + 1 else ro
    let co := min cc.column_offset render_x
    let co := if render_x ≥ co + cc.screen_columns then render_x - cc.screen_columns + 1 else co
    { cc with render_x := render_x, row_offset := ro, column_offset := co }

/-- The transient status message; only its text is modelled, the
`set_time` expiry clock being external wall-clock state. -/
structure StatusMessage where
  message : Option Str
deriving DecidableEq, Repr

/-- `StatusMessage::set_message`. -/
def StatusMessage.set_message (m : Str) : StatusMessage :=
  { message := some m }

/-- The `Output` aggregate: terminal geometry, row store, cursor
controller, status message and dirty counter. `win_size` is
(columns, text rows); the accumulated frame string is not modelled. -/
structure Output where
  win_size : Nat × Nat
  editor_rows : EditorRows
  cursor_controller : CursorController
  status_message : StatusMessage
  dirty : Nat
deriving DecidableEq, Repr

/-- `Output::move_cursor`. -/
def Output.move_cursor (o : Output) (direction : KeyCodeT) : Option Output :=
  (o.cursor_controller.move_cursor direction o.editor_rows).map fun cc =>
    { o with cursor_controller := cc }

/-- `Output::insert_char`: append an empty row when the cursor sits past
the last row, insert into the cursor row at `cursor_x`, advance the
cursor column and bump the dirty counter. -/
def Output.insert_char (o : Output) (ch : Char) : Option Output :=
  let rows :=
    if o.cursor_controller.cursor_y = o.editor_rows.number_of_rows then
      o.editor_rows.insert_row
    else
      o.editor_rows
  match rows.row_contents.get? o.cursor_controller.cursor_y with
  | none => none
  | some row =>
    match row.insert_char o.cursor_controller.cursor_x ch with
    | none => none
    | some row' =>
      some { o with
        editor_rows := { rows with
          row_contents := rows.row_contents.set o.cursor_controller.cursor_y row' },
        cursor_controller := { o.cursor_controller with
          cursor_x := o.cursor_controller.cursor_x + 1 },
        dirty := o.dirty + 1 }

/-- `Output::delete_char`: early return past the last row and at the very
origin; otherwise delete the scalar before the cursor, or at column 0
join the cursor row into the previous one, moving the cursor to the join
point; bump the dirty counter. -/
def Output.delete_char (o : Output) : Option Output :=
  if o.cursor_controller.cursor_y = o.editor_rows.number_of_rows then
    some o
  else if o.cursor_controller.cursor_y = 0 ∧ o.cursor_controller.cursor_x = 0 then
    some o
  else
    match o.editor_rows.row_contents.get? o.cursor_controller.cursor_y with
    | none => none
    | some row =>
      if 0 < o.cursor_controller.cursor_x then
        match row.delete_char (o.cursor_controller.cursor_x - 1) with
        | none => none
        | some row' =>
          some { o with
            editor_rows := { o.editor_rows with
              row_contents :=
                o.editor_rows.row_contents.set o.cursor_controller.cursor_y row' },
            cursor_controller := { o.cursor_controller with
              cursor_x := o.cursor_controller.cursor_x - 1 },
            dirty := o.dirty + 1 }
      else
        match o.editor_rows.get_row (o.cursor_controller.cursor_y - 1) with
        | none => none
        | some previous_row_content =>
          match o.editor_rows.join_adjacent_rows o.cursor_controller.cursor_y with
          | none => none
          | some e' =>
            some { o with
              editor_rows := e',
              cursor_controller := { o.cursor_controller with
                cursor_x := previous_row_content.length,
                cursor_y := o.cursor_controller.cursor_y - 1 },
              dirty := o.dirty + 1 }

/-- The `PageUp`/`PageDown` arm of `process_keypress`: jump `cursor_y` to
the viewport edge, then apply one screenful of single-row moves. `none`
models the `usize` underflow when `win_size.1 + row_offset` is zero. -/
def Output.page (o : Output) (d : KeyCodeT) : Option Output :=
  let setY : Option Nat :=
    match d with
    | .PageUp => some o.cursor_controller.row_offset
    | _ =>
      if o.win_size.2 + o.cursor_controller.row_offset = 0 then none
      else
        some (min (o.win_size.2 + o.cursor_controller.row_offset - 1)
          o.editor_rows.number_of_rows)
  setY.bind fun y =>
    let o := { o with cursor_controller := { o.cursor_controller with cursor_y := y } }
    (List.range o.win_size.2).foldlM
      (fun acc _ => acc.move_cursor (match d with | .PageUp => KeyCodeT.Up | _ => KeyCodeT.Down))
      o

/-- The top-level editor state: the output aggregate plus the
quit-confirmation counter. -/
structure Editor where
  output : Output
  quit_times : Nat
deriving DecidableEq, Repr

/-- The quit warning emitted while unsaved changes block Ctrl-Q, with the
pre-decrement counter value interpolated. -/
def quitWarning (n : Nat) : Str :=
  ("WARNING!!! File has unsaved changes. Press Ctrl-Q " ++ toString n
    ++ " more times to quit.").data

/-- The save confirmation message with the byte count interpolated. -/
def savedMsg (len : Nat) : Str :=
  (toString len ++ " bytes written to disk").data

/-- Result of one `Editor::process_keypress` call: `ok ed cont` is
`Ok(cont)` with the editor mutated to `ed` (`cont = false` ends the main
loop, i.e. the session reaches the Quitting state); `fatal ed msg` is an
`Err` propagated out by the `?` operator with the editor state left as
`ed` when the error escaped. -/
inductive KeyResult where
  | ok (ed : Editor) (cont : Bool)
  | fatal (ed : Editor) (msg : Str)
deriving DecidableEq, Repr

/-- `Editor::process_keypress`: the flat decision table over
(code, modifiers). The Ctrl-Q arm returns early (no quit-counter reset);
every other completed arm falls through to `quit_times = QUIT_TIMES` and
`Ok(true)`. `none` models a panic inside an arm; `fatal` models the `?`
propagation of a save error. -/
def Editor.process_keypress (ed : Editor) (ev : KeyEvent) : Option KeyResult :=
  match ev.code, ev.modifiers with
  | .Char 'q', .CONTROL =>
    if 0 < ed.output.dirty ∧ 0 < ed.quit_times then
      some (.ok
        { output := { ed.output with
            status_message := StatusMessage.set_message (quitWarning ed.quit_times) },
          quit_times := ed.quit_times - 1 }
        true)
    else
      some (.ok ed false)
  | code, mods =>
    let stepped : Option (Except Str Output) :=
      match code, mods with
      | .Up, .NONE => (ed.output.move_cursor .Up).map Except.ok
      | .Down, .NONE => (ed.output.move_cursor .Down).map Except.ok
      | .Left, .NONE => (ed.output.move_cursor .Left).map Except.ok
      | .Right, .NONE => (ed.output.move_cursor .Right).map Except.ok
      | .End, .NONE => (ed.output.move_cursor .End).map Except.ok
      | .Home, .NONE => (ed.output.move_cursor .Home).map Except.ok
      | .PageUp, .NONE => (ed.output.page .PageUp).map Except.ok
      | .PageDown, .NONE => (ed.output.page .PageDown).map Except.ok
      | .Char 's', .CONTROL =>
        match ed.output.editor_rows.save with
        | .error msg => some (.error msg)
        | .ok len =>
          some (.ok { ed.output with
            status_message := StatusMessage.set_message (savedMsg len),
            dirty := 0 })
      | .Backspace, .NONE => ed.output.delete_char.map Except.ok
      | .Delete, .NONE =>
        ((ed.output.move_cursor .Right).bind Output.delete_char).map Except.ok
      | .Char ch, .NONE => (ed.output.insert_char ch).map Except.ok
      | .Char ch, .SHIFT => (ed.output.insert_char ch).map Except.ok
      | .Tab, .NONE => (ed.output.insert_char '\t').map Except.ok
      | .Tab, .SHIFT => (ed.output.insert_char '\t').map Except.ok
      | _, _ => some (.ok ed.output)
    stepped.map fun r =>
      match r with
      | .error msg => .fatal ed msg
      | .ok o => .ok { output := o, quit_times := QUIT_TIMES } true

/-- The Ctrl-Q chord. -/
def ctrlQ : KeyEvent := { code := .Char 'q', modifiers := .CONTROL }

/-- The Ctrl-S chord. -/
def ctrlS : KeyEvent := { code := .Char 's', modifiers := .CONTROL }

/-- The editor state after a keypress that completed with `Ok`. -/
def stepEd (ed : Editor) (ev : KeyEvent) : Option Editor :=
  match ed.process_keypress ev with
  | some (.ok e _) => some e
  | _ => none

/-- The continue flag of a keypress that completed with `Ok`
(`false` means the main loop stops: the Quitting state). -/
def contFlag (ed : Editor) (ev : KeyEvent) : Option Bool :=
  match ed.process_keypress ev with
  | some (.ok _ b) => some b
  | _ => none

/-- The cursor-position invariant of the spec data model: the row is at
most the row count, and on an existing row the column is at most the raw
row length. -/
def validCursor (e : EditorRows) (cc : CursorController) : Prop :=
  cc.cursor_y ≤ e.number_of_rows ∧
    (cc.cursor_y < e.number_of_rows → cc.cursor_x ≤ e.rowLenD cc.cursor_y)

instance (e : EditorRows) (cc : CursorController) : Decidable (validCursor e cc) := by
  unfold validCursor; infer_instance

/-- Run a list of cursor moves left to right, stopping at the first
panicking one. -/
def runMoves (e : EditorRows) : List KeyCodeT → CursorController → Option CursorController
  | [], cc => some cc
  | d :: ds, cc =>
    match cc.move_cursor d e with
    | none => none
    | some cc' => runMoves e ds cc'

/-- Render-cache coherence: every stored render cache equals the
expansion of its row's raw content. -/
def cacheCoherent (e : EditorRows) : Prop :=
  ∀ r ∈ e.row_contents, r.render = renderRow r.row_content

instance (e : EditorRows) : Decidable (cacheCoherent e) := by
  unfold cacheCoherent; infer_instance

/-- A two-row sample buffer holding "ab" and "cd", with no file path. -/
def sampleRows : EditorRows :=
  { row_contents := loadRows [['a', 'b'], ['c', 'd']], filename := none }

/-- A cursor at the origin of a 10-column, 10-row window. -/
def originCursor : CursorController :=
  { cursor_x := 0, cursor_y := 0, screen_columns := 10, screen_rows := 10,
    row_offset := 0, column_offset := 0, render_x := 0 }

/-- Sample output state: the two-row buffer with the cursor at the start
of the second row, clean. -/
def sampleOutput : Output :=
  { win_size := (10, 10), editor_rows := sampleRows,
    cursor_controller := { originCursor with cursor_y := 1 },
    status_message := { message := none }, dirty := 0 }

/-- Sample editor over `sampleOutput` with the quit counter at its
initial value. -/
def sampleEditor : Editor := { output := sampleOutput, quit_times := 3 }

/-- Same as `sampleEditor` but with one unsaved change. -/
def dirtyEditor : Editor :=
  { output := { sampleOutput with dirty := 1 }, quit_times := 3 }

/-- C10: when the cursor row equals the row count, `Output::delete_char`
returns before touching anything, so the whole output state — buffer
rows, cursor and dirty counter — is returned unchanged. -/
theorem delete_char_past_last_row_noop (o : Output)
    (h : o.cursor_controller.cursor_y = o.editor_rows.number_of_rows) :
    o.delete_char = some o := by
  simp [Output.delete_char, h]

/-- Witness for C10: a concrete output with the cursor one past the last
row is returned unchanged by `delete_char`. -/
theorem delete_char_past_last_row_noop_witness :
    ({ sampleOutput with
      cursor_controller := { originCursor with cursor_y := 2 } } : Output).delete_char
      = some { sampleOutput with
        cursor_controller := { originCursor with cursor_y := 2 } } :=
  delete_char_past_last_row_noop _ (by decide)

/-- C9: from buffer ["ab", "cd"] with the cursor at (row 1, column 0),
dispatching Backspace joins the rows into ["abcd"], puts the cursor at
(row 0, column 2) and increments the dirty counter from 0 to 1. -/
theorem backspace_at_column_zero_joins_rows :
    sampleEditor.process_keypress { code := .Backspace, modifiers := .NONE } =
      some (.ok
        { output :=
            { win_size := (10, 10),
              editor_rows :=
                { row_contents := [{ row_content := ['a', 'b', 'c', 'd'],
                                     render := ['a', 'b', 'c', 'd'] }],
                  filename := none },
              cursor_controller := { originCursor with cursor_x := 2, cursor_y := 0 },
              status_message := { message := none },
              dirty := 1 },
          quit_times := 3 }
        true) := by
  rfl

/-- C3: pressing Left at (row 0, column 0) is not a no-op in the code:
the `Left` arm decrements `cursor_y` on a `usize` that is 0, which
underflows (panics in a debug build; wraps in release and then panics on
the out-of-bounds row index). The model returns `none` for this panic. -/
theorem left_at_origin_panics :
    originCursor.move_cursor .Left sampleRows = none := by
  rfl

/-- The rendered-column counter of `render_row` tracks the length of the
output it has pushed: starting the walk at counter `i`, the final counter
(`i` plus the number of scalars pushed) equals the fold of the per-scalar
column step of `get_render_x` over the same scalars. -/
theorem renderChars_length (cs : Str) : ∀ i : Nat,
    i + (renderChars i cs).length =
      cs.foldl
        (fun render_x c =>
          if c = '\t' then render_x + (TAB_STOP - 1) - render_x % TAB_STOP + 1
          else render_x + 1) i := by
  induction cs with
  | nil => intro i; simp [renderChars]
  | cons c rest ih =>
    intro i
    by_cases hc : c = '\t'
    · subst hc
      have h1 : renderChars i ('\t' :: rest)
          = ' ' :: (List.replicate (tabPad (i + 1)) ' '
            ++ renderChars (i + 1 + tabPad (i + 1)) rest) := by
        simp [renderChars]
      have h2 : i + 1 + tabPad (i + 1) = i + (TAB_STOP - 1) - i % TAB_STOP + 1 := by
        unfold tabPad TAB_STOP
        omega
      rw [h1]
      simp only [List.foldl_cons, if_pos rfl, if_true, List.length_cons, List.length_append,
        List.length_replicate]
      rw [← h2, ← ih (i + 1 + tabPad (i + 1))]
      omega
    · have h1 : renderChars i (c :: rest) = c :: renderChars (i + 1) rest := by
        simp [renderChars, hc]
      rw [h1]
      simp only [List.foldl_cons, if_neg hc, List.length_cons]
      rw [← ih (i + 1)]
      omega

/-- C7: for a cursor column within the raw row, `get_render_x` equals the
length of the tab expansion (`render_row`) of the raw scalars strictly
before the cursor column. -/
theorem render_x_eq_length_of_expanded_head (cc : CursorController) (row : Row)
    (h : cc.cursor_x ≤ row.row_content.length) :
    cc.get_render_x row = some (renderRow (row.row_content.take cc.cursor_x)).length := by
  unfold CursorController.get_render_x renderRow
  rw [if_pos h]
  have := renderChars_length (row.row_content.take cc.cursor_x) 0
  simp only [Nat.zero_add] at this
  rw [this]

/-- Witness for C7: on the raw row "a⇥b" with the cursor at column 2, the
render column is 8 and equals the length of the expansion of "a⇥". -/
theorem render_x_eq_length_of_expanded_head_witness :
    ({ originCursor with cursor_x := 2 } : CursorController).get_render_x
        { row_content := ['a', '\t', 'b'], render := renderRow ['a', '\t', 'b'] }
      = some (renderRow (['a', '\t', 'b'].take 2)).length :=
  render_x_eq_length_of_expanded_head _ _ (by decide)

/-- C6: whenever `CursorController::scroll` completes (screen at least
1×1), the viewport invariant holds: the cursor row lies in
[row_offset, row_offset + screen_rows) and the render column lies in
[column_offset, column_offset + screen_columns), for any prior offsets. -/
theorem scroll_establishes_viewport_invariant (cc : CursorController) (e : EditorRows)
    (hr : 1 ≤ cc.screen_rows) (hc : 1 ≤ cc.screen_columns)
    (cc' : CursorController) (h : cc.scroll e = some cc') :
    cc'.row_offset ≤ cc'.cursor_y ∧ cc'.cursor_y < cc'.row_offset + cc'.screen_rows ∧
      cc'.column_offset ≤ cc'.render_x ∧
      cc'.render_x < cc'.column_offset + cc'.screen_columns := by
  unfold CursorController.scroll at h
  rw [Option.map_eq_some'] at h
  obtain ⟨v, _, rfl⟩ := h
  dsimp only
  split_ifs <;> omega

/-- Witness for C6: scrolling the two-row buffer from stale offsets
(row offset 2, column offset 7) with the cursor at (row 0, column 1) on a
5×3 screen lands on offsets (0, 1) and render column 1, inside the
window. -/
theorem scroll_establishes_viewport_invariant_witness :
    ({ cursor_x := 1, cursor_y := 0, screen_columns := 5, screen_rows := 3,
       row_offset := 0, column_offset := 1, render_x := 1 } : CursorController).row_offset
        ≤ ({ cursor_x := 1, cursor_y := 0, screen_columns := 5, screen_rows := 3,
             row_offset := 0, column_offset := 1, render_x := 1 } : CursorController).cursor_y ∧
      ({ cursor_x := 1, cursor_y := 0, screen_columns := 5, screen_rows := 3,
         row_offset := 0, column_offset := 1, render_x := 1 } : CursorController).cursor_y
        < ({ cursor_x := 1, cursor_y := 0, screen_columns := 5, screen_rows := 3,
             row_offset := 0, column_offset := 1, render_x := 1 } : CursorController).row_offset
          + ({ cursor_x := 1, cursor_y := 0, screen_columns := 5, screen_rows := 3,
               row_offset := 0, column_offset := 1, render_x := 1 } : CursorController).screen_rows ∧
      ({ cursor_x := 1, cursor_y := 0, screen_columns := 5, screen_rows := 3,
         row_offset := 0, column_offset := 1, render_x := 1 } : CursorController).column_offset
        ≤ ({ cursor_x := 1, cursor_y := 0, screen_columns := 5, screen_rows := 3,
             row_offset := 0, column_offset := 1, render_x := 1 } : CursorController).render_x ∧
      ({ cursor_x := 1, cursor_y := 0, screen_columns := 5, screen_rows := 3,
         row_offset := 0, column_offset := 1, render_x := 1 } : CursorController).render_x
        < ({ cursor_x := 1, cursor_y := 0, screen_columns := 5, screen_rows := 3,
             row_offset := 0, column_offset := 1, render_x := 1 } : CursorController).column_offset
          + ({ cursor_x := 1, cursor_y := 0, screen_columns := 5, screen_rows := 3,
               row_offset := 0, column_offset := 1, render_x := 1 } : CursorController).screen_columns :=
  scroll_establishes_viewport_invariant
    { cursor_x := 1, cursor_y := 0, screen_columns := 5, screen_rows := 3,
      row_offset := 2, column_offset := 7, render_x := 0 }
    sampleRows (by decide) (by decide) _ rfl

/-- After the final column re-clamp of `move_cursor`, any state whose
row is in bounds satisfies the full cursor bounds. -/
theorem clamped_cursor_valid (e : EditorRows) (c : CursorController)
    (hcy : c.cursor_y ≤ e.number_of_rows) :
    validCursor e { c with
      cursor_x := min c.cursor_x
        (if c.cursor_y < e.number_of_rows then e.rowLenD c.cursor_y else 0) } := by
  refine ⟨hcy, ?_⟩
  dsimp only
  intro hlt
  rw [if_pos hlt]
  exact min_le_right _ _

/-- One completed `move_cursor` call preserves the spec cursor bounds:
the row stays at most the row count, and on an existing row the final
re-clamp keeps the column at most the raw row length. -/
theorem move_cursor_preserves_bounds (e : EditorRows) (cc cc' : CursorController)
    (d : KeyCodeT) (hv : validCursor e cc)
    (h : cc.move_cursor d e = some cc') : validCursor e cc' := by
  obtain ⟨hy, -⟩ := hv
  cases d with
  | Up =>
    simp only [CursorController.move_cursor, Option.map_eq_some', Option.some.injEq] at h
    obtain ⟨c, hc, rfl⟩ := h
    subst hc
    exact clamped_cursor_valid e _ (by show cc.cursor_y - 1 ≤ e.number_of_rows; omega)
  | Down =>
    simp only [CursorController.move_cursor, Option.map_eq_some'] at h
    obtain ⟨c, hc, rfl⟩ := h
    split_ifs at hc with h1 <;> replace hc := Option.some_inj.mp hc <;> subst hc
    · exact clamped_cursor_valid e _ (by show cc.cursor_y + 1 ≤ e.number_of_rows; omega)
    · exact clamped_cursor_valid e _ hy
  | Left =>
    simp only [CursorController.move_cursor, Option.map_eq_some'] at h
    obtain ⟨c, hc, rfl⟩ := h
    split_ifs at hc with h1 h2
    · replace hc := Option.some_inj.mp hc
      subst hc
      exact clamped_cursor_valid e _ hy
    · rw [Option.map_eq_some'] at hc
      obtain ⟨r, -, hfc⟩ := hc
      subst hfc
      exact clamped_cursor_valid e _ (by show cc.cursor_y - 1 ≤ e.number_of_rows; omega)
  | Right =>
    simp only [CursorController.move_cursor, Option.map_eq_some'] at h
    obtain ⟨c, hc, rfl⟩ := h
    split_ifs at hc with h1
    · rw [Option.map_eq_some'] at hc
      obtain ⟨r, -, hfc⟩ := hc
      split_ifs at hfc <;> subst hfc
      · exact clamped_cursor_valid e _ hy
      · exact clamped_cursor_valid e _ (by show cc.cursor_y + 1 ≤ e.number_of_rows; omega)
      · exact clamped_cursor_valid e _ hy
    · replace hc := Option.some_inj.mp hc
      subst hc
      exact clamped_cursor_valid e _ hy
  | Home =>
    simp only [CursorController.move_cursor, Option.map_eq_some', Option.some.injEq] at h
    obtain ⟨c, hc, rfl⟩ := h
    subst hc
    exact clamped_cursor_valid e _ hy
  | End =>
    simp only [CursorController.move_cursor, Option.map_eq_some'] at h
    obtain ⟨c, hc, rfl⟩ := h
    split_ifs at hc with h1
    · rw [Option.map_eq_some'] at hc
      obtain ⟨r, -, hfc⟩ := hc
      subst hfc
      exact clamped_cursor_valid e _ hy
    · replace hc := Option.some_inj.mp hc
      subst hc
      exact clamped_cursor_valid e _ hy
  | Char ch => simp [CursorController.move_cursor] at h
  | PageUp => simp [CursorController.move_cursor] at h
  | PageDown => simp [CursorController.move_cursor] at h
  | Backspace => simp [CursorController.move_cursor] at h
  | Delete => simp [CursorController.move_cursor] at h
  | Tab => simp [CursorController.move_cursor] at h
  | Esc => simp [CursorController.move_cursor] at h

/-- C4: along any sequence of completed `move` calls from a cursor
within bounds, the bounds hold after every call — each intermediate state
is the final state of the corresponding prefix of the sequence, so this
statement covers all of them. Calls modelled as `none` (the panicking
Left-at-origin underflow) produce no successor state. -/
theorem moves_preserve_cursor_bounds (e : EditorRows) (ds : List KeyCodeT) :
    ∀ cc cc' : CursorController, validCursor e cc →
      runMoves e ds cc = some cc' → validCursor e cc' := by
  induction ds with
  | nil =>
    intro cc cc' hv h
    simp only [runMoves, Option.some.injEq] at h
    subst h
    exact hv
  | cons d ds ih =>
    intro cc cc' hv h
    simp only [runMoves] at h
    cases hm : cc.move_cursor d e with
    | none => rw [hm] at h; exact absurd h (by simp)
    | some cm =>
      rw [hm] at h
      exact ih cm cc' (move_cursor_preserves_bounds e cc cm d hv hm) h

/-- Witness for C4: running Right, Down, End on the two-row buffer from
the origin ends at (row 1, column 2), which is within bounds. -/
theorem moves_preserve_cursor_bounds_witness :
    validCursor sampleRows { originCursor with cursor_x := 2, cursor_y := 1 } :=
  moves_preserve_cursor_bounds sampleRows [KeyCodeT.Right, KeyCodeT.Down, KeyCodeT.End]
    originCursor { originCursor with cursor_x := 2, cursor_y := 1 } (by decide) rfl

/-- Replacing one row of a coherent list by a row whose cache is computed
from its raw content keeps every row coherent. -/
theorem set_recomputed_coherent (base : List Row) (y : Nat) (raw : Str)
    (hbase : ∀ r ∈ base, r.render = renderRow r.row_content) :
    ∀ r ∈ base.set y { row_content := raw, render := renderRow raw },
      r.render = renderRow r.row_content := by
  intro r hr
  rcases List.mem_or_eq_of_mem_set hr with hr' | rfl
  · exact hbase r hr'
  · rfl

/-- `join_adjacent_rows` recomputes the merged row's cache and leaves all
other rows untouched, so coherence of the store is preserved. -/
theorem join_adjacent_rows_coherent (e : EditorRows) (at_ : Nat) (e' : EditorRows)
    (hco : cacheCoherent e) (h : e.join_adjacent_rows at_ = some e') :
    cacheCoherent e' := by
  unfold EditorRows.join_adjacent_rows at h
  cases at_ with
  | zero =>
    cases hg : e.row_contents.get? 0 <;> rw [hg] at h <;> simp at h
  | succ p =>
    cases hg : e.row_contents.get? (p + 1) with
    | none => rw [hg] at h; simp at h
    | some current =>
      rw [hg] at h
      simp only [] at h
      cases hg2 : (e.row_contents.eraseIdx (p + 1)).get? p with
      | none => rw [hg2] at h; simp at h
      | some previous =>
        rw [hg2] at h
        simp only [Option.some.injEq] at h
        subst h
        intro r hr
        refine set_recomputed_coherent _ p _ ?_ r hr
        intro r' hr'
        exact hco r' ((List.eraseIdx_sublist _ _).subset hr')

/-- C5: starting from a coherent row store (every cached render equal to
the expansion of its raw content), each mutating operation — character
insert, character delete (including its row-join branch), and
`join_adjacent_rows` — leaves every row's cache equal to the expansion of
that row's raw content, so no stale cache is ever observable. -/
theorem mutations_keep_render_cache_coherent (o : Output)
    (hco : cacheCoherent o.editor_rows) :
    (∀ ch o', o.insert_char ch = some o' → cacheCoherent o'.editor_rows) ∧
      (∀ o', o.delete_char = some o' → cacheCoherent o'.editor_rows) ∧
      (∀ at_ e', o.editor_rows.join_adjacent_rows at_ = some e' → cacheCoherent e') := by
  refine ⟨?_, ?_, ?_⟩
  · intro ch o' h
    unfold Output.insert_char at h
    simp only [] at h
    split_ifs at h with hY
    · have hbase : cacheCoherent o.editor_rows.insert_row := by
        intro r hr
        unfold EditorRows.insert_row at hr
        rcases List.mem_append.mp hr with hr' | hr'
        · exact hco r hr'
        · rcases List.mem_singleton.mp hr' with rfl
          rfl
      cases hg : o.editor_rows.insert_row.row_contents.get? o.cursor_controller.cursor_y with
      | none => rw [hg] at h; simp at h
      | some row =>
        rw [hg] at h
        simp only [] at h
        unfold Row.insert_char at h
        split_ifs at h
        simp only [Option.some.injEq] at h
        subst h
        exact set_recomputed_coherent _ _ _ hbase
    · cases hg : o.editor_rows.row_contents.get? o.cursor_controller.cursor_y with
      | none => rw [hg] at h; simp at h
      | some row =>
        rw [hg] at h
        simp only [] at h
        unfold Row.insert_char at h
        split_ifs at h
        simp only [Option.some.injEq] at h
        subst h
        exact set_recomputed_coherent _ _ _ hco
  · intro o' h
    unfold Output.delete_char at h
    split_ifs at h with h1 h2 h3
    · replace h := Option.some_inj.mp h
      subst h
      exact hco
    · replace h := Option.some_inj.mp h
      subst h
      exact hco
    · cases hg : o.editor_rows.row_contents.get? o.cursor_controller.cursor_y with
      | none => rw [hg] at h; simp at h
      | some row =>
        rw [hg] at h
        simp only [] at h
        unfold Row.delete_char at h
        split_ifs at h
        simp only [Option.some.injEq] at h
        subst h
        exact set_recomputed_coherent _ _ _ hco
    · cases hg : o.editor_rows.row_contents.get? o.cursor_controller.cursor_y with
      | none => rw [hg] at h; simp at h
      | some row =>
        rw [hg] at h
        simp only [] at h
        cases hp : o.editor_rows.get_row (o.cursor_controller.cursor_y - 1) with
        | none => rw [hp] at h; simp at h
        | some previous =>
          rw [hp] at h
          simp only [] at h
          cases hj : o.editor_rows.join_adjacent_rows o.cursor_controller.cursor_y with
          | none => rw [hj] at h; simp at h
          | some e' =>
            rw [hj] at h
            simp only [Option.some.injEq] at h
            subst h
            exact join_adjacent_rows_coherent _ _ _ hco hj
  · intro at_ e' h
    exact join_adjacent_rows_coherent _ _ _ hco h

/-- Witness for C5: the two-row sample buffer is coherent, and after
inserting 'x' at (row 1, column 0) the resulting store — rows "ab" and
"xcd" — is coherent again. -/
theorem mutations_keep_render_cache_coherent_witness :
    cacheCoherent
      ({ win_size := (10, 10),
         editor_rows :=
           { row_contents := [{ row_content := ['a', 'b'], render := ['a', 'b'] },
               { row_content := ['x', 'c', 'd'], render := ['x', 'c', 'd'] }],
             filename := none },
         cursor_controller := { originCursor with cursor_x := 1, cursor_y := 1 },
         status_message := { message := none },
         dirty := 1 } : Output).editor_rows :=
  (mutations_keep_render_cache_coherent sampleOutput (by decide)).1 'x' _ rfl

/-- Splitting a newline-free piece yields just that piece. -/
theorem splitNl_no_nl (l : Str) (h : ('\n') ∉ l) : splitNl l = [l] := by
  induction l with
  | nil => rfl
  | cons c cs ih =>
    have hc : ¬(c = '\n') := by
      intro hh
      subst hh
      exact h (List.mem_cons_self _ _)
    have hcs : ('\n') ∉ cs := fun hh => h (List.mem_cons_of_mem _ hh)
    simp only [splitNl, if_neg hc, ih hcs]

/-- Splitting after a newline-free piece followed by a newline peels off
that piece. -/
theorem splitNl_append_nl (l t : Str) (h : ('\n') ∉ l) :
    splitNl (l ++ '\n' :: t) = l :: splitNl t := by
  induction l with
  | nil => simp [splitNl]
  | cons c cs ih =>
    have hc : ¬(c = '\n') := by
      intro hh
      subst hh
      exact h (List.mem_cons_self _ _)
    have hcs : ('\n') ∉ cs := fun hh => h (List.mem_cons_of_mem _ hh)
    have h1 : splitNl ((c :: cs) ++ '\n' :: t)
        = match splitNl (cs ++ '\n' :: t) with
          | [] => [[c]]
          | p :: ps => (c :: p) :: ps := by
      simp only [List.cons_append, splitNl, if_neg hc]
      rfl
    rw [h1, ih hcs]

/-- Splitting the newline-join of newline-free pieces recovers the
pieces. -/
theorem splitNl_joinNl : ∀ ls : List Str, ls ≠ [] → (∀ l ∈ ls, ('\n') ∉ l) →
    splitNl (joinNl ls) = ls
  | [], hne, _ => absurd rfl hne
  | [l], _, h => by
    simpa [joinNl] using splitNl_no_nl l (h l (List.mem_singleton_self l))
  | l :: l₂ :: rest, _, h => by
    have h1 : splitNl (joinNl (l₂ :: rest)) = l₂ :: rest :=
      splitNl_joinNl (l₂ :: rest) (by simp) fun x hx => h x (List.mem_cons_of_mem _ hx)
    simp only [joinNl, splitNl_append_nl _ _ (h l (List.mem_cons_self _ _)), h1]

/-- `rustLines` inverts `joinNl` when no piece contains a newline, no
piece ends in a carriage return, and the final piece is nonempty. -/
theorem rustLines_joinNl (ls : List Str)
    (hnl : ∀ l ∈ ls, ('\n') ∉ l)
    (hcr : ∀ l ∈ ls, l.getLast? ≠ some '\r')
    (hlast : ls.getLast? ≠ some []) :
    rustLines (joinNl ls) = ls := by
  rcases List.eq_nil_or_concat ls with rfl | ⟨L, b, hcat⟩
  · rfl
  · rw [List.concat_eq_append] at hcat
    subst hcat
    have hne : L ++ [b] ≠ ([] : List Str) := by simp
    have hsplit := splitNl_joinNl (L ++ [b]) hne hnl
    have hb : b ≠ [] := by
      intro hbe
      subst hbe
      exact hlast (List.getLast?_concat L)
    have hmap : L.map stripCr = L := by
      have hid : ∀ x ∈ L, stripCr x = x := by
        intro x hx
        unfold stripCr
        rw [if_neg (hcr x (by simp [hx]))]
      rw [List.map_congr_left hid]
      exact List.map_id _
    simp only [rustLines]
    rw [hsplit, List.getLast?_concat, List.dropLast_concat]
    cases b with
    | nil => exact absurd rfl hb
    | cons c cs =>
      rw [hmap]

/-- C8: loading a sequence of lines into the row store and serializing
back with `save`'s newline join, then splitting as the file loader does,
reproduces the lines exactly — provided no line contains a newline, no
line ends in a carriage return, and the last line is nonempty (the cases
where line-break normalization loses information). -/
theorem load_then_save_round_trips (ls : List Str)
    (hnl : ∀ l ∈ ls, ('\n') ∉ l)
    (hcr : ∀ l ∈ ls, l.getLast? ≠ some '\r')
    (hlast : ls.getLast? ≠ some []) :
    rustLines
      (EditorRows.saveContents { row_contents := loadRows ls, filename := none }) = ls := by
  have hs : EditorRows.saveContents { row_contents := loadRows ls, filename := none }
      = joinNl ls := by
    unfold EditorRows.saveContents loadRows
    rw [List.map_map]
    have h : List.map
        (Row.row_content ∘ fun l => ({ row_content := l, render := renderRow l } : Row)) ls
        = List.map (fun l => l) ls := List.map_congr_left fun x _ => rfl
    rw [h, List.map_id']
  rw [hs]
  exact rustLines_joinNl ls hnl hcr hlast

/-- Witness for C8: the lines "a" and "bc" survive the load/save round
trip unchanged. -/
theorem load_then_save_round_trips_witness :
    rustLines
        (EditorRows.saveContents
          { row_contents := loadRows [['a'], ['b', 'c']], filename := none })
      = [['a'], ['b', 'c']] :=
  load_then_save_round_trips _ (by decide) (by decide) (by decide)

/-- C2 counterexample: dispatching Save on a dirty buffer with no
associated path does not leave the session Running with the error
surfaced as a status message — `process_keypress` propagates the error
out through the `?` operator (`fatal`), which ends the main loop with an
error; no `ok` outcome exists for this input. -/
theorem save_no_filename_not_surfaced_counterexample :
    dirtyEditor.process_keypress ctrlS = some (.fatal dirtyEditor noFileNameMsg) ∧
      ¬∃ e' cont, dirtyEditor.process_keypress ctrlS = some (.ok e' cont) := by
  refine ⟨rfl, ?_⟩
  rintro ⟨e', cont, hcontra⟩
  rw [show dirtyEditor.process_keypress ctrlS = some (.fatal dirtyEditor noFileNameMsg)
    from rfl] at hcontra
  simp at hcontra

/-- C2 (amended): when Save is dispatched and no file path is associated,
`EditorRows::save` returns the NoFileNameError and the `?` in
`process_keypress` propagates it instead of catching it — the keypress
handler exits with the error (terminating the session), and the editor
state, including the buffer rows, the dirty counter and the status
message, is left exactly unchanged. -/
theorem save_error_propagates_unchanged (ed : Editor)
    (h : ed.output.editor_rows.filename = none) :
    ed.process_keypress ctrlS = some (.fatal ed noFileNameMsg) := by
  simp [Editor.process_keypress, ctrlS, EditorRows.save, h]

/-- Witness for C2 (amended): the sample dirty editor has no file path
and Save propagates the NoFileNameError with the state unchanged. -/
theorem save_error_propagates_unchanged_witness :
    dirtyEditor.output.editor_rows.filename = none ∧
      dirtyEditor.process_keypress ctrlS = some (.fatal dirtyEditor noFileNameMsg) :=
  ⟨rfl, save_error_propagates_unchanged dirtyEditor rfl⟩

/-- C1 counterexample: with one unsaved change and the quit counter at
its initial value 3, the third consecutive Ctrl-Q still completes with
continue-flag `true` — the main loop keeps running, so the session does
NOT reach Quitting on the third press. -/
theorem third_quit_press_does_not_quit_counterexample :
    (((stepEd dirtyEditor ctrlQ).bind fun e => stepEd e ctrlQ).bind fun e =>
        contFlag e ctrlQ)
      = some true := by
  rfl

/-- C1 (amended): with dirty > 0 and the quit counter at its initial
value 3, Ctrl-Q shows the warning with remaining counts 3, 2, 1 on
presses 1, 2 and 3 while the session stays Running, and the session
reaches Quitting (continue-flag `false`) on the 4th consecutive press,
which shows no further warning and leaves the state unchanged. -/
theorem quit_confirmation_takes_four_presses (ed : Editor)
    (hd : 0 < ed.output.dirty) (hq : ed.quit_times = 3) :
    ∃ e1 e2 e3 : Editor,
      ed.process_keypress ctrlQ = some (.ok e1 true) ∧
        e1.output.status_message.message = some (quitWarning 3) ∧
        e1.process_keypress ctrlQ = some (.ok e2 true) ∧
        e2.output.status_message.message = some (quitWarning 2) ∧
        e2.process_keypress ctrlQ = some (.ok e3 true) ∧
        e3.output.status_message.message = some (quitWarning 1) ∧
        e3.process_keypress ctrlQ = some (.ok e3 false) := by
  refine ⟨{ output := { ed.output with
        status_message := StatusMessage.set_message (quitWarning 3) }, quit_times := 2 },
      { output := { ed.output with
        status_message := StatusMessage.set_message (quitWarning 2) }, quit_times := 1 },
      { output := { ed.output with
        status_message := StatusMessage.set_message (quitWarning 1) }, quit_times := 0 },
      ?_, rfl, ?_, rfl, ?_, rfl, ?_⟩
  · simp [Editor.process_keypress, ctrlQ, hd, hq]
  · simp [Editor.process_keypress, ctrlQ, hd, hq]
  · simp [Editor.process_keypress, ctrlQ, hd, hq]
  · simp [Editor.process_keypress, ctrlQ, hd, hq]

/-- Witness for C1 (amended): the sample dirty editor (dirty = 1, quit
counter 3) walks through warnings 3, 2, 1 and quits on the 4th press. -/
theorem quit_confirmation_takes_four_presses_witness :
    0 < dirtyEditor.output.dirty ∧ dirtyEditor.quit_times = 3 ∧
      ∃ e1 e2 e3 : Editor,
        dirtyEditor.process_keypress ctrlQ = some (.ok e1 true) ∧
          e1.output.status_message.message = some (quitWarning 3) ∧
          e1.process_keypress ctrlQ = some (.ok e2 true) ∧
          e2.output.status_message.message = some (quitWarning 2) ∧
          e2.process_keypress ctrlQ = some (.ok e3 true) ∧
          e3.output.status_message.message = some (quitWarning 1) ∧
          e3.process_keypress ctrlQ = some (.ok e3 false) :=
  ⟨by decide, rfl, quit_confirmation_takes_four_presses dirtyEditor (by decide) rfl⟩
